import Mathlib

/-!
Shallow embedding of the shell command-execution gateway of `src/shell.ts`
(class `ShellExecutor`): allow-list handling, working-directory validation
against the sandbox base directory, environment merging, timeout selection,
and the normalisation of every process outcome into one result shape.

Filesystem existence and the behaviour of the spawned child process are
inputs to the embedding: `fsExists : String → Bool` stands for
`fs.existsSync`, and a `ProcessEvent` stands for whichever of the three
events (`close`, `error`, timeout timer) resolves the promise first in
`spawnCommand`.
-/

/-- The result shape returned by `executeCommand` / `spawnCommand`:
`{stdout, stderr, exitCode, success, error?}`. -/
structure ExecutionResult where
  stdout : String
  stderr : String
  exitCode : Int
  success : Bool
  error : Option String
deriving Repr, DecidableEq

/-- The helper `createErrorResponse(message)` from `shell.ts`: empty stdout, the message
as stderr, exit code 1, `success: false`, and the message in the `error`
field. -/
def createErrorResponse (message : String) : ExecutionResult :=
  { stdout := ""
    stderr := message
    exitCode := 1
    success := false
    error := some message }

/-- Split a character list at every occurrence of a separator character.
Structurally recursive counterpart of splitting a string on a one-character
separator. -/
def splitOnChar (sep : Char) : List Char → List (List Char)
  | [] => [[]]
  | c :: rest =>
    match splitOnChar sep rest with
    | [] => if c = sep then [[], []] else [[c]]
    | seg :: segs => if c = sep then [] :: seg :: segs else (c :: seg) :: segs

/-- The `/`-separated segments of a path string. -/
def pathSegs (p : String) : List String :=
  (splitOnChar '/' p.toList).map List.asString

/-- String prefix test (the JS `String.prototype.startsWith`). -/
def strStartsWith (s pre : String) : Bool :=
  pre.toList.isPrefixOf s.toList

/-- Join strings with a separator (the JS `Array.prototype.join`),
structurally recursive so it computes in the kernel. -/
def joinWith (sep : String) : List String → String
  | [] => ""
  | [s] => s
  | s :: rest => s ++ sep ++ joinWith sep rest

/-- Join path segments with `/`. -/
def joinSegs : List String → String :=
  joinWith "/"

/-- Node's posix `path.basename`: the last non-empty path segment (so any
directory prefix and trailing slashes are ignored); `"/"` for the root path
and `""` for the empty string. -/
def basename (p : String) : String :=
  match ((pathSegs p).filter (fun s => s ≠ "")).getLast? with
  | some s => s
  | none => if strStartsWith p "/" then "/" else p

/-- One pass of posix path normalisation over the list of path segments:
`""` and `"."` are dropped, `".."` pops the previous segment (and is dropped
at the root), any other segment is kept. The accumulator holds the kept
segments in reverse. -/
def normalizeSegs : List String → List String → List String
  | [], acc => acc.reverse
  | seg :: rest, acc =>
    if seg = "" ∨ seg = "." then normalizeSegs rest acc
    else if seg = ".." then normalizeSegs rest (acc.drop 1)
    else normalizeSegs rest (seg :: acc)

/-- Normalise an absolute posix path: split on `/`, process `.` and `..`,
rejoin. The result has no trailing slash (except the bare root `/`). -/
def normalizeAbs (p : String) : String :=
  "/" ++ joinSegs (normalizeSegs (pathSegs p) [])

/-- Node's posix `path.resolve(base, p)` for an absolute `base`: if `p` is
absolute it wins, otherwise `p` is joined onto `base`; the result is
normalised either way. -/
def pathResolve (base p : String) : String :=
  if strStartsWith p "/" then normalizeAbs p
  else normalizeAbs (base ++ "/" ++ p)

/-- JS `Set.add`: append the element unless it is already present. The
embedding models `Set<string>` as a duplicate-free list in insertion
order. -/
def setAdd (s : List String) (x : String) : List String :=
  if x ∈ s then s else s ++ [x]

/-- JS `Set.delete`: remove the element (all occurrences; a `Set` holds at
most one). -/
def setDelete (s : List String) (x : String) : List String :=
  s.filter (fun y => y ≠ x)

/-- The check `ShellExecutor.isCommandAllowed`: extract the basename of the command
(`path.basename`, stripping any directory prefix) and test set membership
(exact, case-sensitive string comparison). -/
def isCommandAllowed (allowedCommands : List String) (command : String) : Bool :=
  basename command ∈ allowedCommands

/-- The check `ShellExecutor.validateWorkingDirectory`: absent (or empty, JS-falsy)
`cwd` returns the base directory unchecked; otherwise the path is resolved
against the base directory, checked for containment by
`resolvedPath.startsWith(baseDirectory)` — a raw string-prefix test — and
checked for existence with `fs.existsSync`. Failures are thrown `Error`s,
modelled as `Except.error` carrying the message. -/
def validateWorkingDirectory (baseDirectory : String) (fsExists : String → Bool)
    (cwd : Option String) : Except String String :=
  match cwd with
  | none => .ok baseDirectory
  | some c =>
    if c = "" then .ok baseDirectory
    else
      let resolvedPath := pathResolve baseDirectory c
      if ¬ strStartsWith resolvedPath baseDirectory then
        .error ("作業ディレクトリ " ++ c ++ " は許可されたベースディレクトリの外にあります")
      else if ¬ fsExists resolvedPath then
        .error ("ディレクトリが存在しません: " ++ resolvedPath)
      else
        .ok resolvedPath

/-- Lookup in an environment modelled as a list of `key=value` bindings in
assignment order, the last binding for a key winning — the semantics of
successive JS object-literal assignments. -/
def envLookup (e : List (String × String)) (k : String) : Option String :=
  (e.reverse.find? (fun p => p.1 = k)).map (fun p => p.2)

/-- The merged environment `{...shellEnvironment, ...(env || {})}` of
`executeCommand`: base bindings first, then the request-level overrides, so
later (request) bindings win on lookup. -/
def mergeEnv (base req : List (String × String)) : List (String × String) :=
  base ++ req

/-- The JS expression `timeout || maxTimeout`: an absent timeout — and a
requested timeout of `0`, which is falsy — falls back to the maximum. -/
def jsOrTimeout (timeout : Option Int) (maxTimeout : Int) : Int :=
  match timeout with
  | none => maxTimeout
  | some t => if t = 0 then maxTimeout else t

/-- The timeout handed to `spawnCommand`:
`Math.min(timeout || this.maxTimeout, this.maxTimeout)`. -/
def effectiveTimeout (timeout : Option Int) (maxTimeout : Int) : Int :=
  min (jsOrTimeout timeout maxTimeout) maxTimeout

/-- Whichever of the three `spawnCommand` events resolves the promise
first, together with the output accumulated on each stream at that
moment: the `close` event (with the raw exit code, `none` standing for
JS `null` after a signal), the `error` event (spawn failure), or the
timeout timer firing. -/
inductive ProcessEvent where
  | closed (stdoutAcc stderrAcc : String) (exitCode : Option Int)
  | errored (stdoutAcc stderrAcc : String) (message : String)
  | timedOut (stdoutAcc stderrAcc : String)
deriving Repr, DecidableEq

/-- The result `spawnCommand` resolves with, as a function of the first
event: the `close` handler reports the raw exit code (`1` when it is
`null`) and `success` iff the raw code is exactly `0`; the `error` handler
reports code 1 with the OS message as both stderr and `error`; the timeout
handler reports code 1 with a timeout message naming the timeout duration
as stderr and a fixed timeout message as `error`, keeping only the
accumulated stdout. -/
def spawnResult (timeout : Int) (ev : ProcessEvent) : ExecutionResult :=
  match ev with
  | .closed so se code =>
    { stdout := so
      stderr := se
      exitCode := code.getD 1
      success := decide (code = some 0)
      error := none }
  | .errored so _ msg =>
    { stdout := so
      stderr := msg
      exitCode := 1
      success := false
      error := some msg }
  | .timedOut so _ =>
    { stdout := so
      stderr := "コマンドは" ++ toString timeout ++ "ms後にタイムアウトしました"
      exitCode := 1
      success := false
      error := some "コマンド実行がタイムアウトしました" }

/-- The per-instance configuration state of `ShellExecutor`. -/
structure ShellExecutor where
  allowedCommands : List String
  baseDirectory : String
  maxTimeout : Int
  shellEnvironment : List (String × String)

/-- The seed allow-list installed by the `ShellExecutor` constructor. -/
def defaultAllowedCommands : List String :=
  ["npm", "yarn", "pnpm", "bun",
   "git",
   "ls", "dir", "find", "mkdir", "rmdir", "cp", "mv", "rm", "cat",
   "node", "python", "python3", "tsc", "eslint", "prettier",
   "make", "cargo", "go",
   "docker", "docker-compose",
   "echo", "touch", "grep"]

/-- The `ShellExecutor` constructor: seed allow-list, the given base
directory and shell environment, and a 60 000 ms maximum timeout. -/
def mkShellExecutor (baseDir : String) (shellEnv : List (String × String)) :
    ShellExecutor :=
  { allowedCommands := defaultAllowedCommands
    baseDirectory := baseDir
    maxTimeout := 60000
    shellEnvironment := shellEnv }

/-- The arguments `executeCommand` hands to `spawnCommand` once every
validation has passed. -/
structure SpawnArgs where
  command : String
  args : List String
  cwd : String
  env : List (String × String)
  timeout : Int
deriving Repr, DecidableEq

/-- The validation phase of `executeCommand`, in source order: (1) empty
command, (2) allow-list check (the rejection message names the command and
lists the allowed commands), (3) working-directory validation (a thrown
error is caught and converted with `createErrorResponse`). On failure the
error response is returned and no process is spawned; on success the spawn
arguments (merged environment, capped timeout) are produced. -/
def prepareCommand (ex : ShellExecutor) (fsExists : String → Bool)
    (command : String) (args : List String) (cwd : Option String)
    (env : Option (List (String × String))) (timeout : Option Int) :
    Except ExecutionResult SpawnArgs :=
  if command = "" then
    .error (createErrorResponse "コマンドが指定されていません")
  else if ¬ isCommandAllowed ex.allowedCommands command then
    .error (createErrorResponse
      ("コマンドは許可されていません: " ++ command ++ "。許可されているコマンド: "
        ++ joinWith ", " ex.allowedCommands))
  else
    match validateWorkingDirectory ex.baseDirectory fsExists cwd with
    | .error msg => .error (createErrorResponse msg)
    | .ok workingDir =>
      .ok { command := command
            args := args
            cwd := workingDir
            env := mergeEnv ex.shellEnvironment (env.getD [])
            timeout := effectiveTimeout timeout ex.maxTimeout }

/-- The method `ShellExecutor.executeCommand`: run the validation phase; on failure
return the error response, otherwise return the result `spawnCommand`
resolves with for the first process event. Every outcome is a returned
`ExecutionResult`; nothing escapes as an exception. -/
def executeCommand (ex : ShellExecutor) (fsExists : String → Bool)
    (command : String) (args : List String) (cwd : Option String)
    (env : Option (List (String × String))) (timeout : Option Int)
    (ev : ProcessEvent) : ExecutionResult :=
  match prepareCommand ex fsExists command args cwd env timeout with
  | .error r => r
  | .ok sa => spawnResult sa.timeout ev

/-- The method `ShellExecutor.allowCommand`: `Set.add` on the allow-list. -/
def allowCommand (ex : ShellExecutor) (command : String) : ShellExecutor :=
  { ex with allowedCommands := setAdd ex.allowedCommands command }

/-- The method `ShellExecutor.disallowCommand`: `Set.delete` on the allow-list. -/
def disallowCommand (ex : ShellExecutor) (command : String) : ShellExecutor :=
  { ex with allowedCommands := setDelete ex.allowedCommands command }

/-! Helper instance and lemmas shared by the claim theorems. -/

instance {e a : Type} [DecidableEq e] [DecidableEq a] : DecidableEq (Except e a) := fun x y =>
  match x, y with
  | .ok u, .ok v => if h : u = v then .isTrue (by simp [h]) else .isFalse (by simp [h])
  | .error u, .error v => if h : u = v then .isTrue (by simp [h]) else .isFalse (by simp [h])
  | .ok _, .error _ => .isFalse (by simp)
  | .error _, .ok _ => .isFalse (by simp)

theorem prepareCommand_error_shape (ex : ShellExecutor) (fsExists : String → Bool)
    (command : String) (args : List String) (cwd : Option String)
    (env : Option (List (String × String))) (timeout : Option Int) (r : ExecutionResult)
    (h : prepareCommand ex fsExists command args cwd env timeout = .error r) :
    ∃ m, r = createErrorResponse m := by
  unfold prepareCommand at h
  split at h
  · exact ⟨_, (Except.error.inj h).symm⟩
  · split at h
    · exact ⟨_, (Except.error.inj h).symm⟩
    · split at h
      · exact ⟨_, (Except.error.inj h).symm⟩
      · simp at h

theorem prepareCommand_ok_shape (ex : ShellExecutor) (fsExists : String → Bool)
    (command : String) (args : List String) (cwd : Option String)
    (env : Option (List (String × String))) (timeout : Option Int) (sa : SpawnArgs)
    (h : prepareCommand ex fsExists command args cwd env timeout = .ok sa) :
    sa.command = command ∧ sa.args = args ∧
    validateWorkingDirectory ex.baseDirectory fsExists cwd = .ok sa.cwd ∧
    sa.env = mergeEnv ex.shellEnvironment (env.getD []) ∧
    sa.timeout = effectiveTimeout timeout ex.maxTimeout := by
  unfold prepareCommand at h
  split at h
  · simp at h
  · split at h
    · simp at h
    · split at h
      · simp at h
      · next w hv =>
          have := Except.ok.inj h
          subst this
          exact ⟨rfl, rfl, hv, rfl, rfl⟩

theorem mem_setAdd_self (s : List String) (x : String) : x ∈ setAdd s x := by
  unfold setAdd
  split_ifs with h
  · exact h
  · simp

theorem setAdd_idem (s : List String) (x : String) :
    setAdd (setAdd s x) x = setAdd s x := by
  by_cases h : x ∈ s
  · simp [setAdd, h]
  · simp [setAdd, h]

theorem setDelete_of_not_mem (s : List String) (x : String) (h : x ∉ s) :
    setDelete s x = s := by
  unfold setDelete
  exact List.filter_eq_self.mpr
    (fun a ha => decide_eq_true (fun hax => h (hax ▸ ha)))

theorem not_mem_setDelete_self (s : List String) (x : String) : x ∉ setDelete s x := by
  intro h
  have := (List.mem_filter.mp h).2
  simp at this

theorem setDelete_idem (s : List String) (x : String) :
    setDelete (setDelete s x) x = setDelete s x :=
  setDelete_of_not_mem _ _ (not_mem_setDelete_self s x)

/-- C1: the spec requires working-directory containment to be decided by
path-segment prefix, rejecting sibling directories such as
`/srv/app-other` under base `/srv/app` with a sandbox violation. The code
instead checks containment with a raw `startsWith` string-prefix test, so
for base directory `/srv/app` and requested cwd `/srv/app-other` (which
exists on disk) validation succeeds and returns `/srv/app-other`, even
though that path is neither the base directory nor a path-segment
descendant of it. -/
theorem c1_sibling_escape_admitted :
    validateWorkingDirectory "/srv/app" (fun p => p = "/srv/app-other") (some "/srv/app-other")
      = Except.ok "/srv/app-other" ∧
    strStartsWith "/srv/app-other" ("/srv/app" ++ "/") = false ∧
    "/srv/app-other" ≠ "/srv/app" := by decide

/-- C2: `executeCommand` never propagates an exception: for every request
and every process behaviour, the returned value is an `ExecutionResult` in
one of the two encoded forms — a `createErrorResponse` (empty command,
disallowed command, working-directory failure, all caught at the boundary)
or the `spawnResult` for the first process event (normal exit, spawn
failure, timeout). -/
theorem c2_executeCommand_total_encoding (ex : ShellExecutor) (fsExists : String → Bool)
    (command : String) (args : List String) (cwd : Option String)
    (env : Option (List (String × String))) (timeout : Option Int) (ev : ProcessEvent) :
    (∃ m, executeCommand ex fsExists command args cwd env timeout ev = createErrorResponse m) ∨
    (∃ sa, prepareCommand ex fsExists command args cwd env timeout = Except.ok sa ∧
      executeCommand ex fsExists command args cwd env timeout ev = spawnResult sa.timeout ev) := by
  cases hp : prepareCommand ex fsExists command args cwd env timeout with
  | error r =>
    obtain ⟨m, hm⟩ := prepareCommand_error_shape _ _ _ _ _ _ _ _ hp
    refine Or.inl ⟨m, ?_⟩
    unfold executeCommand
    rw [hp, hm]
  | ok sa =>
    refine Or.inr ⟨sa, rfl, ?_⟩
    unfold executeCommand
    rw [hp]

/-- C3 counterexample: when the timeout timer fires first, the code keeps
only the accumulated stdout; the stderr captured up to termination
(here `"partial-err"`) is not returned — the result's stderr field is
replaced by the timeout message — refuting the claim that all output of
both streams is still returned. -/
theorem c3_counterexample :
    spawnResult 1000 (ProcessEvent.timedOut "partial-out" "partial-err")
      = { stdout := "partial-out"
          stderr := "コマンドは1000ms後にタイムアウトしました"
          exitCode := 1
          success := false
          error := some "コマンド実行がタイムアウトしました" } ∧
    (spawnResult 1000 (ProcessEvent.timedOut "partial-out" "partial-err")).stderr
      ≠ "partial-err" := by decide

/-- C3 amended: when the timeout timer fires before process exit (the
timer exists only for a truthy, i.e. nonzero, timeout), the result has
exit code 1, `success = false`, an error field with a timeout-specific
message, and the stdout captured up to termination; the captured stderr is
discarded, its field instead carrying a message naming the timeout
duration. -/
theorem c3_timeout_result (so se : String) (t : Int) (h : t ≠ 0) :
    spawnResult t (ProcessEvent.timedOut so se)
      = { stdout := so
          stderr := "コマンドは" ++ toString t ++ "ms後にタイムアウトしました"
          exitCode := 1
          success := false
          error := some "コマンド実行がタイムアウトしました" } := rfl

/-- C3 witness: the amended timeout property evaluated at a concrete
execution with a 1000 ms timeout and partial output on both streams. -/
theorem c3_timeout_result_witness :
    (1000 : Int) ≠ 0 ∧
    spawnResult 1000 (ProcessEvent.timedOut "out" "err")
      = { stdout := "out"
          stderr := "コマンドは" ++ toString (1000 : Int) ++ "ms後にタイムアウトしました"
          exitCode := 1
          success := false
          error := some "コマンド実行がタイムアウトしました" } :=
  ⟨by decide, c3_timeout_result "out" "err" 1000 (by decide)⟩

/-- C7: when the process fails to start at all (the `error` event fires
with no output accumulated on either stream), the result has exit code 1,
`success = false`, the error field carrying the underlying OS error text
(also copied to stderr), and empty captured output. -/
theorem c7_spawn_failure_result (t : Int) (msg : String) :
    spawnResult t (ProcessEvent.errored "" "" msg)
      = { stdout := ""
          stderr := msg
          exitCode := 1
          success := false
          error := some msg } := rfl

/-- C9: when no working-directory override is supplied,
`validateWorkingDirectory` returns the base directory unchanged and never
fails — for every base directory and every filesystem state, so no
containment or existence check is applied to the base directory itself. -/
theorem c9_no_cwd_returns_base (baseDirectory : String) (fsExists : String → Bool) :
    validateWorkingDirectory baseDirectory fsExists none = Except.ok baseDirectory := rfl

/-- C10: on the `close` event a `null` raw exit code (signal-killed
process) is reported as exit code 1, and `success` holds iff the raw exit
code is exactly 0 — so a signal-killed process yields `success = false`
with exit code 1. -/
theorem c10_signal_exit_code (t : Int) (so se : String) (code : Option Int) :
    (spawnResult t (ProcessEvent.closed so se code)).exitCode = code.getD 1 ∧
    ((spawnResult t (ProcessEvent.closed so se code)).success = true ↔ code = some 0) ∧
    (spawnResult t (ProcessEvent.closed so se none)).exitCode = 1 ∧
    (spawnResult t (ProcessEvent.closed so se none)).success = false := by
  refine ⟨rfl, ?_, rfl, rfl⟩
  simp [spawnResult]

/-- C4: a command is allowed iff its basename is a member of the allow-list
(exact, case-sensitive match); `allowCommand` and `disallowCommand` are
idempotent no-ops on present/absent entries, and their effect is
immediately observable through `isCommandAllowed`. -/
theorem c4_allowlist_contract :
    (∀ (s : List String) (c : String), isCommandAllowed s c = true ↔ basename c ∈ s) ∧
    (∀ (ex : ShellExecutor) (x : String), x ∈ ex.allowedCommands → allowCommand ex x = ex) ∧
    (∀ (ex : ShellExecutor) (x : String),
      allowCommand (allowCommand ex x) x = allowCommand ex x) ∧
    (∀ (ex : ShellExecutor) (x : String), x ∉ ex.allowedCommands → disallowCommand ex x = ex) ∧
    (∀ (ex : ShellExecutor) (x : String),
      disallowCommand (disallowCommand ex x) x = disallowCommand ex x) ∧
    (∀ (s : List String) (c : String), isCommandAllowed (setAdd s (basename c)) c = true) ∧
    (∀ (s : List String) (c : String), isCommandAllowed (setDelete s (basename c)) c = false) := by
  refine ⟨?_, ?_, ?_, ?_, ?_, ?_, ?_⟩
  · intro s c
    simp [isCommandAllowed]
  · intro ex x h
    simp [allowCommand, setAdd, h]
  · intro ex x
    simp [allowCommand, setAdd_idem]
  · intro ex x h
    simp [disallowCommand, setDelete_of_not_mem _ _ h]
  · intro ex x
    simp [disallowCommand, setDelete_idem]
  · intro s c
    simp [isCommandAllowed]
    exact mem_setAdd_self s (basename c)
  · intro s c
    simp [isCommandAllowed]
    exact not_mem_setDelete_self s (basename c)

/-- C4 witness: the idempotence parts evaluated on the seed executor —
adding the already-present `git` and removing the absent `curl` are
no-ops. -/
theorem c4_allowlist_contract_witness :
    "git" ∈ (mkShellExecutor "/srv/app" []).allowedCommands ∧
    allowCommand (mkShellExecutor "/srv/app" []) "git" = mkShellExecutor "/srv/app" [] ∧
    "curl" ∉ (mkShellExecutor "/srv/app" []).allowedCommands ∧
    disallowCommand (mkShellExecutor "/srv/app" []) "curl" = mkShellExecutor "/srv/app" [] :=
  ⟨by decide,
   c4_allowlist_contract.2.1 (mkShellExecutor "/srv/app" []) "git" (by decide),
   by decide,
   c4_allowlist_contract.2.2.2.1 (mkShellExecutor "/srv/app" []) "curl" (by decide)⟩

/-- C5: `executeCommand` validates in the fixed order: empty command, then
allow-list, then working directory, short-circuiting at the first failure;
each failure yields a `createErrorResponse` result (so `success = false`),
the allow-list rejection message names the rejected command, and in every
failure case the result does not depend on any process behaviour — the
conclusions hold for every `ProcessEvent`, so no process is spawned. -/
theorem c5_validation_order :
    (∀ (ex : ShellExecutor) (fsExists : String → Bool) (args : List String)
        (cwd : Option String) (env : Option (List (String × String)))
        (timeout : Option Int) (ev : ProcessEvent),
      executeCommand ex fsExists "" args cwd env timeout ev
        = createErrorResponse "コマンドが指定されていません") ∧
    (∀ (ex : ShellExecutor) (fsExists : String → Bool) (command : String)
        (args : List String) (cwd : Option String)
        (env : Option (List (String × String))) (timeout : Option Int) (ev : ProcessEvent),
      command ≠ "" → isCommandAllowed ex.allowedCommands command = false →
      executeCommand ex fsExists command args cwd env timeout ev
        = createErrorResponse ("コマンドは許可されていません: " ++ command
            ++ "。許可されているコマンド: " ++ joinWith ", " ex.allowedCommands)) ∧
    (∀ (ex : ShellExecutor) (fsExists : String → Bool) (command : String)
        (args : List String) (cwd : Option String)
        (env : Option (List (String × String))) (timeout : Option Int) (ev : ProcessEvent)
        (m : String),
      command ≠ "" → isCommandAllowed ex.allowedCommands command = true →
      validateWorkingDirectory ex.baseDirectory fsExists cwd = Except.error m →
      executeCommand ex fsExists command args cwd env timeout ev = createErrorResponse m) ∧
    (∀ m, (createErrorResponse m).success = false) := by
  refine ⟨?_, ?_, ?_, fun m => rfl⟩
  · intro ex fsExists args cwd env timeout ev
    rfl
  · intro ex fsExists command args cwd env timeout ev h1 h2
    unfold executeCommand prepareCommand
    rw [if_neg h1, if_pos (by simp [h2])]
  · intro ex fsExists command args cwd env timeout ev m h1 h2 hv
    unfold executeCommand prepareCommand
    rw [if_neg h1, if_neg (by simp [h2]), hv]

/-- C5 witness: the allow-list rejection (for the unlisted `curl`) and the
sandbox rejection (for `git` with the outside directory `/etc`) evaluated
on the seed executor, for an arbitrary process event. -/
theorem c5_validation_order_witness :
    executeCommand (mkShellExecutor "/srv/app" []) (fun _ => true) "curl" []
        (some "sub") none none (ProcessEvent.closed "" "" (some 0))
      = createErrorResponse ("コマンドは許可されていません: " ++ "curl"
          ++ "。許可されているコマンド: "
          ++ joinWith ", " (mkShellExecutor "/srv/app" []).allowedCommands) ∧
    executeCommand (mkShellExecutor "/srv/app" []) (fun _ => true) "git" []
        (some "/etc") none none (ProcessEvent.closed "" "" (some 0))
      = createErrorResponse "作業ディレクトリ /etc は許可されたベースディレクトリの外にあります" :=
  ⟨c5_validation_order.2.1 (mkShellExecutor "/srv/app" []) (fun _ => true) "curl" []
      (some "sub") none none (ProcessEvent.closed "" "" (some 0)) (by decide) (by decide),
   c5_validation_order.2.2.1 (mkShellExecutor "/srv/app" []) (fun _ => true) "git" []
      (some "/etc") none none (ProcessEvent.closed "" "" (some 0))
      "作業ディレクトリ /etc は許可されたベースディレクトリの外にあります" (by decide) (by decide) (by decide)⟩

/-- C6 counterexample: the claim says a requested timeout of 0 is used as
given, i.e. the effective timeout would be `min(0, 60000) = 0`; but the
code computes `timeout || maxTimeout`, which treats 0 as falsy, so a
request with timeout 0 that passes validation is handed the maximum
60000 ms instead of 0. -/
theorem c6_counterexample :
    (prepareCommand (mkShellExecutor "/srv/app" []) (fun _ => true) "git" [] none none
        (some 0)).toOption.map SpawnArgs.timeout = some 60000 ∧
    (60000 : Int) ≠ min 0 60000 := by decide

/-- C6 amended: the effective timeout handed to the process runner equals
`min(timeout || maxTimeout, maxTimeout)`: when no timeout is requested, or
the requested timeout is 0 (JS-falsy), it defaults to the configured
maximum; a nonzero requested timeout is capped at the maximum but
otherwise used as given. -/
theorem c6_effective_timeout (ex : ShellExecutor) (fsExists : String → Bool)
    (command : String) (args : List String) (cwd : Option String)
    (env : Option (List (String × String))) :
    (∀ sa, prepareCommand ex fsExists command args cwd env none = Except.ok sa →
      sa.timeout = ex.maxTimeout) ∧
    (∀ sa, prepareCommand ex fsExists command args cwd env (some 0) = Except.ok sa →
      sa.timeout = ex.maxTimeout) ∧
    (∀ (t : Int) sa, t ≠ 0 →
      prepareCommand ex fsExists command args cwd env (some t) = Except.ok sa →
      sa.timeout = min t ex.maxTimeout) := by
  refine ⟨?_, ?_, ?_⟩
  · intro sa h
    have ht := (prepareCommand_ok_shape _ _ _ _ _ _ _ _ h).2.2.2.2
    simpa [effectiveTimeout, jsOrTimeout] using ht
  · intro sa h
    have ht := (prepareCommand_ok_shape _ _ _ _ _ _ _ _ h).2.2.2.2
    simpa [effectiveTimeout, jsOrTimeout] using ht
  · intro t sa htz h
    have ht := (prepareCommand_ok_shape _ _ _ _ _ _ _ _ h).2.2.2.2
    simpa [effectiveTimeout, jsOrTimeout, htz] using ht

/-- C6 witness: the amended timeout rule evaluated at a concrete passing
request with a requested timeout of 5000 ms against the 60000 ms maximum. -/
theorem c6_effective_timeout_witness :
    (5000 : Int) ≠ 0 ∧
    prepareCommand (mkShellExecutor "/srv/app" []) (fun _ => true) "git" [] none none
        (some 5000)
      = Except.ok { command := "git", args := [], cwd := "/srv/app", env := [],
                    timeout := 5000 } ∧
    ({ command := "git", args := [], cwd := "/srv/app", env := [],
       timeout := 5000 } : SpawnArgs).timeout
      = min 5000 (mkShellExecutor "/srv/app" []).maxTimeout :=
  ⟨by decide, by decide,
   (c6_effective_timeout (mkShellExecutor "/srv/app" []) (fun _ => true) "git" [] none
      none).2.2 5000
      { command := "git", args := [], cwd := "/srv/app", env := [], timeout := 5000 }
      (by decide) (by decide)⟩

/-- C8: in the merged environment handed to the spawned process, a key
defined in the request-level overrides maps to the request value (request
wins on conflict with the base shell environment), a key absent from the
overrides keeps its base value, and the environment `prepareCommand`
places in the spawn arguments is exactly this merge of the shell
environment with the request overrides. -/
theorem c8_env_override :
    (∀ (base req : List (String × String)) (k v : String),
      envLookup req k = some v → envLookup (mergeEnv base req) k = some v) ∧
    (∀ (base req : List (String × String)) (k : String),
      envLookup req k = none → envLookup (mergeEnv base req) k = envLookup base k) ∧
    (∀ (ex : ShellExecutor) (fsExists : String → Bool) (command : String)
        (args : List String) (cwd : Option String)
        (env : Option (List (String × String))) (timeout : Option Int) (sa : SpawnArgs),
      prepareCommand ex fsExists command args cwd env timeout = Except.ok sa →
      sa.env = mergeEnv ex.shellEnvironment (env.getD [])) := by
  refine ⟨?_, ?_, ?_⟩
  · intro base req k v h
    unfold envLookup at h
    unfold envLookup mergeEnv
    rw [List.reverse_append, List.find?_append]
    obtain ⟨pr, hpr, hv⟩ := Option.map_eq_some'.mp h
    rw [hpr]
    simp [hv]
  · intro base req k h
    unfold envLookup at h
    unfold envLookup mergeEnv
    rw [List.reverse_append, List.find?_append]
    rw [Option.map_eq_none'.mp h]
    simp
  · intro ex fsExists command args cwd env timeout sa h
    exact (prepareCommand_ok_shape _ _ _ _ _ _ _ _ h).2.2.2.1

/-- C8 witness: with base environment `PATH=/base, HOME=/home` and request
override `PATH=/req`, the merged environment maps `PATH` to the request
value and `HOME` to the base value; and a concrete passing request carries
exactly the merged environment in its spawn arguments. -/
theorem c8_env_override_witness :
    envLookup [("PATH", "/req")] "PATH" = some "/req" ∧
    envLookup (mergeEnv [("PATH", "/base"), ("HOME", "/home")] [("PATH", "/req")]) "PATH"
      = some "/req" ∧
    envLookup [("PATH", "/req")] "HOME" = none ∧
    envLookup (mergeEnv [("PATH", "/base"), ("HOME", "/home")] [("PATH", "/req")]) "HOME"
      = envLookup [("PATH", "/base"), ("HOME", "/home")] "HOME" ∧
    prepareCommand (mkShellExecutor "/srv/app" [("PATH", "/base"), ("HOME", "/home")])
        (fun _ => true) "git" [] none (some [("PATH", "/req")]) none
      = Except.ok { command := "git", args := [], cwd := "/srv/app",
                    env := [("PATH", "/base"), ("HOME", "/home"), ("PATH", "/req")],
                    timeout := 60000 } ∧
    ({ command := "git", args := [], cwd := "/srv/app",
       env := [("PATH", "/base"), ("HOME", "/home"), ("PATH", "/req")],
       timeout := 60000 } : SpawnArgs).env
      = mergeEnv (mkShellExecutor "/srv/app" [("PATH", "/base"), ("HOME", "/home")]).shellEnvironment
          ((some [("PATH", "/req")]).getD []) :=
  ⟨by decide,
   c8_env_override.1 [("PATH", "/base"), ("HOME", "/home")] [("PATH", "/req")] "PATH" "/req"
     (by decide),
   by decide,
   c8_env_override.2.1 [("PATH", "/base"), ("HOME", "/home")] [("PATH", "/req")] "HOME"
     (by decide),
   by decide,
   c8_env_override.2.2 (mkShellExecutor "/srv/app" [("PATH", "/base"), ("HOME", "/home")])
     (fun _ => true) "git" [] none (some [("PATH", "/req")]) none
     { command := "git", args := [], cwd := "/srv/app",
       env := [("PATH", "/base"), ("HOME", "/home"), ("PATH", "/req")], timeout := 60000 }
     (by decide)⟩
